import Mathlib

set_option maxRecDepth 10000

/-!
Shallow embedding of the StreamAPI scraping pipeline (src/app.js, src/search.js,
src/details.js).  JavaScript strings are Lean `String`s, JavaScript numbers that
the pipeline produces are integer-valued and are modelled as `Int` (the code
only ever builds numbers with `parseInt` on digit runs, so no fractional values
arise on the modelled paths), and `undefined`/`NaN` are explicit constructors.
-/

namespace StreamAPI

/-- Left and right curly brace characters, named to keep string/char literals
simple. -/
def lbrace : Char := Char.ofNat 123

def rbrace : Char := Char.ofNat 125

/-- Value of a JavaScript number-typed field after coercion: `undefined`,
`NaN`, or an integer (the code only produces integer-valued numbers). -/
inductive JNum where
  | undefined
  | nan
  | int (n : Int)
deriving DecidableEq, Repr

/-- A loosely typed JavaScript value sitting in a scraped candidate field:
a string, an integer-valued number, `NaN`, a boolean, or a non-primitive
(array/object) carrying its JavaScript string conversion, which is all that
`parseInt` can observe of it. -/
inductive JVal where
  | vStr (s : String)
  | vInt (n : Int)
  | vNaN
  | vBool (b : Bool)
  | vNonPrim (str : String)
deriving DecidableEq, Repr

/-- JavaScript truthiness of a `JVal`. -/
def jvalTruthy : JVal → Bool
  | .vStr s => s != ""
  | .vInt n => n != 0
  | .vNaN => false
  | .vBool b => b
  | .vNonPrim _ => true

/-- Truthiness of a possibly-absent (`undefined`) value. -/
def optValTruthy : Option JVal → Bool
  | some v => jvalTruthy v
  | none => false

/-- Truthiness of a possibly-absent string-valued field. -/
def optStrTruthy : Option String → Bool
  | some s => s != ""
  | none => false

/-- Truthiness of a `JNum`. -/
def jnumTruthy : JNum → Bool
  | .int n => n != 0
  | _ => false

/-- Whitespace accepted by JavaScript `parseInt` / `trim`. -/
def jsWsChar (c : Char) : Bool :=
  c = ' ' || c = '\t' || c = '\n' || c = '\r' ||
    c = Char.ofNat 11 || c = Char.ofNat 12 || c = Char.ofNat 160

def hexDigitVal (c : Char) : Option Nat :=
  if c.isDigit then some (c.toNat - 48)
  else if 'a' ≤ c ∧ c ≤ 'f' then some (c.toNat - 87)
  else if 'A' ≤ c ∧ c ≤ 'F' then some (c.toNat - 70)
  else none

def digitsToNat (l : List Char) : Nat :=
  l.foldl (fun a c => a * 10 + (c.toNat - 48)) 0

def hexToNat (l : List Char) : Nat :=
  l.foldl (fun a c => a * 16 + ((hexDigitVal c).getD 0)) 0

/-- JavaScript `parseInt` on a string (default radix 10 with automatic `0x`
hexadecimal prefix detection): skip leading whitespace, optional sign, then
the longest digit run; no digits means `NaN`. -/
def parseIntStr (s : String) : JNum :=
  let l := s.toList.dropWhile jsWsChar
  let signAndRest : Bool × List Char :=
    match l with
    | '-' :: rest => (true, rest)
    | '+' :: rest => (false, rest)
    | _ => (false, l)
  let neg := signAndRest.1
  let body := signAndRest.2
  let mkInt : Nat → JNum := fun v => .int (if neg then -(v : Int) else (v : Int))
  match body with
  | '0' :: x :: rest =>
    if x = 'x' || x = 'X' then
      let ds := rest.takeWhile (fun c => (hexDigitVal c).isSome)
      if ds.isEmpty then .nan else mkInt (hexToNat ds)
    else
      mkInt (digitsToNat (('0' :: x :: rest).takeWhile Char.isDigit))
  | _ =>
    let ds := body.takeWhile Char.isDigit
    if ds.isEmpty then .nan else mkInt (digitsToNat ds)

/-- JavaScript `parseInt` applied to a field value (the value is first
converted to a string; integers round-trip, booleans and most objects give
`NaN`). -/
def jsParseIntVal : JVal → JNum
  | .vStr s => parseIntStr s
  | .vInt n => .int n
  | .vNaN => .nan
  | .vBool _ => .nan
  | .vNonPrim s => parseIntStr s

/-- JavaScript template-literal rendering of a number field, as used when the
deduplication key is assembled. -/
def jnumToString : JNum → String
  | .undefined => "undefined"
  | .nan => "NaN"
  | .int n => toString n

/-- JavaScript `String.prototype.trim`: strip the whitespace characters of
`jsWsChar` from both ends. -/
def jsTrim (s : String) : String :=
  String.mk (((s.toList.dropWhile jsWsChar).reverse.dropWhile jsWsChar).reverse)

/-- Split on a single-character separator (JavaScript `String.split`). -/
def splitOnChar (sep : Char) : List Char → List (List Char)
  | [] => [[]]
  | c :: cs =>
    if c = sep then [] :: splitOnChar sep cs
    else
      match splitOnChar sep cs with
      | h :: t => (c :: h) :: t
      | [] => [[c]]

/-- Substring containment on character lists (JavaScript `String.includes`). -/
def containsSub (needle : List Char) : List Char → Bool
  | [] => needle.isEmpty
  | c :: cs => needle.isPrefixOf (c :: cs) || containsSub needle cs

/-- JavaScript `s.includes(pat)`. -/
def strContains (s pat : String) : Bool := containsSub pat.toList s.toList

/-- JavaScript `s.startsWith(p)`. -/
def strStartsWith (s p : String) : Bool := p.toList.isPrefixOf s.toList

/-- The literal `/videos/` searched for by `extractVideoPath`. -/
def vidLit : List Char := "/videos/".toList

/-- The scan performed by the regex `/\/videos\/([^\/]+)/`: find the leftmost
position where the literal `/videos/` is followed by at least one non-`/`
character, and capture the maximal run of non-`/` characters after it. -/
def evpAux : List Char → Option (List Char)
  | [] => none
  | c :: cs =>
    let seg := ((c :: cs).drop 8).takeWhile (fun x => x != '/')
    if vidLit.isPrefixOf (c :: cs) && !seg.isEmpty then some seg
    else evpAux cs

/-- `extractVideoPath` (app.js lines 562-566): canonicalize a raw URL to the
short `videos/<segment>` form, or the empty string when no `/videos/<segment>`
portion exists. -/
def extractVideoPath (fullUrl : String) : String :=
  if fullUrl = "" then ""
  else
    match evpAux fullUrl.toList with
    | some seg => "videos/" ++ String.mk seg
    | none => ""

/-- One global single-character replacement: the semantics of
`str.replace(/c/g, rep)` for a single literal character `c`. -/
def replChar (t : Char) (rep : List Char) : List Char → List Char
  | [] => []
  | c :: cs => (if c = t then rep else [c]) ++ replChar t rep cs

/-- `formatThumbnailUrl` (app.js lines 23-27): URLs on the CDN host get the
three characters that break the CDN percent-escaped; all other URLs pass
through unchanged. -/
def formatThumbnailUrl (url : String) : String :=
  if url = "" || !strContains url "xhpingcdn.com" then url
  else
    String.mk (replChar ',' "%2C".toList
      (replChar ')' "%29".toList (replChar '(' "%28".toList url.toList)))

/-- The `landing` sub-object of a candidate record. -/
structure CandLanding where
  type : Option String
  id : Option JVal
  name : Option String
  logo : Option String
  link : Option String
deriving DecidableEq, Repr

/-- CandidateRecord: the loosely typed object handed to `cleanVideoData`.
Fields the code never reads are omitted; string-typed fields hold strings
(a truthy non-string in one of them would make the source throw a TypeError
inside the extraction try/catch, a path no modelled input exercises). -/
structure Candidate where
  id : Option JVal
  title : Option String
  duration : Option JVal
  created : Option JVal
  videoType : Option String
  pageURL : Option String
  thumbURL : Option String
  previewThumbURL : Option String
  imageURL : Option String
  spriteURL : Option String
  trailerURL : Option String
  trailerFallbackUrl : Option String
  views : Option JVal
  landing : Option CandLanding
  isThumbCustom : Option Bool
  isAdminCustomThumb : Option Bool
  userCountry : Option String
  attributes : Option (List (String × String))
  classes : Option String
deriving DecidableEq, Repr

/-- A candidate with every field absent. -/
def emptyCandidate : Candidate :=
  ⟨none, none, none, none, none, none, none, none, none, none, none, none,
    none, none, none, none, none, none, none⟩

/-- The cleaned `landing` sub-object. -/
structure CleanLanding where
  type : Option String
  id : JNum
  name : String
  logo : String
  link : String
deriving DecidableEq, Repr

/-- VideoRecord: the object built by `cleanVideoData` (details.js lines
184-212). -/
structure CleanedVideo where
  id : JNum
  title : String
  duration : JNum
  created : JNum
  videoType : String
  pageURL : String
  thumbURL : String
  previewThumbURL : String
  imageURL : String
  spriteURL : String
  trailerURL : String
  trailerFallbackUrl : String
  views : JNum
  landing : Option CleanLanding
  isThumbCustom : Bool
  isAdminCustomThumb : Bool
  userCountry : String
  attributes : List (String × String)
  classes : String
deriving DecidableEq, Repr

/-- `x ? parseInt(x) : undefined` on a number-ish field. -/
def coerceIntField : Option JVal → JNum
  | some v => if jvalTruthy v then jsParseIntVal v else .undefined
  | none => .undefined

/-- `x ? x.trim() : ''` on a string field. -/
def coerceTrimField : Option String → String
  | some s => if s != "" then jsTrim s else ""
  | none => ""

/-- `x || d` on a string field (JavaScript picks the default for a falsy,
i.e. empty or absent, string). -/
def jsOrString (o : Option String) (d : String) : String :=
  match o with
  | some s => if s != "" then s else d
  | none => d

/-- `hasValidId` (details.js line 215). -/
def hasValidId (c : CleanedVideo) : Bool :=
  match c.id with
  | .int n => decide (0 < n)
  | _ => false

/-- `hasValidTitle` (details.js line 216). -/
def hasValidTitle (c : CleanedVideo) : Bool := c.title != ""

/-- `hasValidDuration` (details.js line 217). -/
def hasValidDuration (c : CleanedVideo) : Bool :=
  match c.duration with
  | .int n => decide (0 < n)
  | _ => false

/-- `hasValidPageURL` (details.js line 218). -/
def hasValidPageURL (c : CleanedVideo) : Bool := c.pageURL != ""

/-- `hasValidThumbURL` (details.js line 219). -/
def hasValidThumbURL (c : CleanedVideo) : Bool := c.thumbURL != ""

/-- `hasValidViews` (details.js line 220): defined and `>= 0` (`NaN >= 0` is
false). -/
def hasValidViews (c : CleanedVideo) : Bool :=
  match c.views with
  | .int n => decide (0 ≤ n)
  | _ => false

/-- Conjunction of the six required-field predicates (details.js line 223). -/
def sixValidB (c : CleanedVideo) : Bool :=
  hasValidId c && hasValidTitle c && hasValidDuration c &&
    hasValidPageURL c && hasValidThumbURL c && hasValidViews c

/-- The final gate of `cleanVideoData` (details.js lines 222-237): return
the record only when all six predicates hold. -/
def gateValid (c : CleanedVideo) : Option CleanedVideo :=
  if sixValidB c then some c else none

/-- `cleanVideoData` (details.js lines 176-238, identically in app.js and as
imported by search.js): coerce every field, then return the record only if
all six required-field predicates hold, else `null`. -/
def cleanVideoData (video : Candidate) : Option CleanedVideo :=
  let fullPageURL := (match video.pageURL with | some s => jsTrim s | none => "")
  if !strContains fullPageURL "/videos/" then none
  else
    gateValid
      { id := coerceIntField video.id
        title := coerceTrimField video.title
        duration := coerceIntField video.duration
        created := coerceIntField video.created
        videoType := jsOrString video.videoType "video"
        pageURL := extractVideoPath fullPageURL
        thumbURL :=
          (match video.thumbURL with
           | some s => if s != "" then formatThumbnailUrl (jsTrim s) else ""
           | none => "")
        previewThumbURL := coerceTrimField video.previewThumbURL
        imageURL :=
          (match video.imageURL with
           | some s => if s != "" then formatThumbnailUrl (jsTrim s) else ""
           | none => "")
        spriteURL := coerceTrimField video.spriteURL
        trailerURL := coerceTrimField video.trailerURL
        trailerFallbackUrl := coerceTrimField video.trailerFallbackUrl
        views :=
          (match video.views with
           | some v => if jvalTruthy v then jsParseIntVal v else .int 0
           | none => .int 0)
        landing :=
          video.landing.map (fun L =>
            { type := L.type
              id := coerceIntField L.id
              name := L.name.getD ""
              logo := L.logo.getD ""
              link := L.link.getD "" })
        isThumbCustom := (video.isThumbCustom.getD false)
        isAdminCustomThumb := (video.isAdminCustomThumb.getD false)
        userCountry := jsOrString video.userCountry ""
        attributes := video.attributes.getD []
        classes := jsOrString video.classes "" }

/-! ### JSON values and `JSON.parse` -/

/-- JSON values as produced by `JSON.parse`.  Numbers are modelled as
integers: the modelled inputs carry only integer numerals, and a fractional
or exponent numeral makes the modelled parse fail. -/
inductive Json where
  | jNull
  | jBool (b : Bool)
  | jNum (n : Int)
  | jStr (s : String)
  | jArr (elems : List Json)
  | jObj (fields : List (String × Json))

/-- JSON insignificant whitespace. -/
def jsonWs (c : Char) : Bool := c = ' ' || c = '\t' || c = '\n' || c = '\r'

/-- Body of a JSON string literal, after the opening quote: returns the
decoded string and the input after the closing quote.  `\uXXXX` decodes via
`Char.ofNat` (lone surrogate halves, which no modelled input contains, fall
back to NUL). -/
def jstrAux (acc : List Char) : List Char → Option (String × List Char)
  | [] => none
  | '\\' :: 'u' :: h1 :: h2 :: h3 :: h4 :: cs =>
    match hexDigitVal h1, hexDigitVal h2, hexDigitVal h3, hexDigitVal h4 with
    | some a, some b, some c, some d =>
      jstrAux (Char.ofNat (((a * 16 + b) * 16 + c) * 16 + d) :: acc) cs
    | _, _, _, _ => none
  | '\\' :: e :: cs =>
    if e = '"' || e = '\\' || e = '/' then jstrAux (e :: acc) cs
    else if e = 'b' then jstrAux (Char.ofNat 8 :: acc) cs
    else if e = 'f' then jstrAux (Char.ofNat 12 :: acc) cs
    else if e = 'n' then jstrAux ('\n' :: acc) cs
    else if e = 'r' then jstrAux ('\r' :: acc) cs
    else if e = 't' then jstrAux ('\t' :: acc) cs
    else none
  | c :: cs =>
    if c = '"' then some (String.mk acc.reverse, cs)
    else if c = '\\' then none
    else if c.toNat < 32 then none
    else jstrAux (c :: acc) cs

/-- JSON number grammar `-? (0 | [1-9][0-9]*)`; a following `.`/`e`/`E`
(fraction or exponent, which the modelled inputs never contain) fails. -/
def jnumAux (l : List Char) : Option (Int × List Char) :=
  let signAndRest : Bool × List Char :=
    match l with
    | '-' :: r => (true, r)
    | _ => (false, l)
  let neg := signAndRest.1
  let finish : Nat → List Char → Option (Int × List Char) := fun v rest =>
    match rest with
    | c :: _ => if c = '.' || c = 'e' || c = 'E' then none
                else some (if neg then -(v : Int) else (v : Int), rest)
    | [] => some (if neg then -(v : Int) else (v : Int), [])
  match signAndRest.2 with
  | '0' :: rest =>
    (match rest with
     | c :: _ => if c.isDigit then none else finish 0 rest
     | [] => finish 0 [])
  | c :: rest =>
    if c.isDigit then
      finish (digitsToNat (c :: rest.takeWhile Char.isDigit))
        (rest.dropWhile Char.isDigit)
    else none
  | [] => none

def stripLit (lit : List Char) (l : List Char) : Option (List Char) :=
  if lit.isPrefixOf l then some (l.drop lit.length) else none

mutual

/-- Fueled `JSON.parse` for one value; returns the value and the rest of the
input. -/
def jparseVal : Nat → List Char → Option (Json × List Char)
  | 0, _ => none
  | fuel + 1, l =>
    match l.dropWhile jsonWs with
    | [] => none
    | c :: cs =>
      if c = lbrace then jparseObjStart fuel cs
      else if c = '[' then jparseArrStart fuel cs
      else if c = '"' then (jstrAux [] cs).map (fun p => (.jStr p.1, p.2))
      else if c = 't' then (stripLit "rue".toList cs).map (fun r => (.jBool true, r))
      else if c = 'f' then (stripLit "alse".toList cs).map (fun r => (.jBool false, r))
      else if c = 'n' then (stripLit "ull".toList cs).map (fun r => (.jNull, r))
      else (jnumAux (c :: cs)).map (fun p => (.jNum p.1, p.2))

/-- After `[`: empty array or the element loop. -/
def jparseArrStart : Nat → List Char → Option (Json × List Char)
  | 0, _ => none
  | fuel + 1, l =>
    match l.dropWhile jsonWs with
    | ']' :: rest => some (.jArr [], rest)
    | _ => jparseArrLoop fuel l []

/-- Element, then `,` for another element or `]` to close. -/
def jparseArrLoop : Nat → List Char → List Json → Option (Json × List Char)
  | 0, _, _ => none
  | fuel + 1, l, acc =>
    match jparseVal fuel l with
    | none => none
    | some (v, rest) =>
      match rest.dropWhile jsonWs with
      | ',' :: r2 => jparseArrLoop fuel r2 (v :: acc)
      | ']' :: r2 => some (.jArr (v :: acc).reverse, r2)
      | _ => none

/-- After `{`: empty object or the member loop. -/
def jparseObjStart : Nat → List Char → Option (Json × List Char)
  | 0, _ => none
  | fuel + 1, l =>
    match l.dropWhile jsonWs with
    | c :: rest =>
      if c = rbrace then some (.jObj [], rest) else jparseObjLoop fuel l []
    | [] => none

/-- `"key" : value`, then `,` for another member or `}` to close. -/
def jparseObjLoop : Nat → List Char → List (String × Json) →
    Option (Json × List Char)
  | 0, _, _ => none
  | fuel + 1, l, acc =>
    match l.dropWhile jsonWs with
    | '"' :: ks =>
      match jstrAux [] ks with
      | none => none
      | some (key, rest) =>
        match rest.dropWhile jsonWs with
        | ':' :: r2 =>
          match jparseVal fuel r2 with
          | none => none
          | some (v, r3) =>
            match r3.dropWhile jsonWs with
            | ',' :: r4 => jparseObjLoop fuel r4 ((key, v) :: acc)
            | c :: r4 =>
              if c = rbrace then some (.jObj ((key, v) :: acc).reverse, r4)
              else none
            | [] => none
        | _ => none
    | _ => none

end

/-- `JSON.parse`: the whole input must be one value plus trailing
whitespace; on any failure the source throws and the caller catches, so the
model returns `none`. -/
def jsonParse (s : String) : Option Json :=
  match jparseVal (s.toList.length + 8) s.toList with
  | some (v, rest) => if (rest.dropWhile jsonWs).isEmpty then some v else none
  | none => none

/-- Property lookup on a parse result: `JSON.parse` objects with duplicate
keys keep the last occurrence; lookups on non-objects give `undefined`. -/
def jfieldOf (fields : List (String × Json)) (k : String) : Option Json :=
  (fields.reverse.find? (fun p => p.1 == k)).map (fun p => p.2)

def jfield : Json → String → Option Json
  | .jObj fs, k => jfieldOf fs k
  | _, _ => none

/-- JavaScript truthiness of a JSON value. -/
def jTruthy : Json → Bool
  | .jNull => false
  | .jBool b => b
  | .jNum n => n != 0
  | .jStr s => s != ""
  | .jArr _ => true
  | .jObj _ => true

def jOptTruthy : Option Json → Bool
  | some j => jTruthy j
  | none => false

/-- `String(x)` for an element of an array being joined (JavaScript
`Array.prototype.join` renders `null` as the empty string). -/
def jsArrElemStr : Json → String
  | .jNull => ""
  | .jBool b => cond b "true" "false"
  | .jNum n => toString n
  | .jStr s => s
  | .jObj _ => "[object Object]"
  | .jArr es => String.intercalate "," (es.attach.map (fun x => jsArrElemStr x.1))
termination_by j => sizeOf j
decreasing_by
  simp_wf
  have := List.sizeOf_lt_of_mem x.2
  simp [Json.jArr.sizeOf_spec]
  omega

/-- Map a JSON field value to the candidate-field model: `null` behaves like
an absent field everywhere the code touches it, and non-primitives carry
their JavaScript string conversion. -/
def jvalOfJson : Json → Option JVal
  | .jNull => none
  | .jBool b => some (.vBool b)
  | .jNum n => some (.vInt n)
  | .jStr s => some (.vStr s)
  | .jArr es => some (.vNonPrim (String.intercalate "," (es.map jsArrElemStr)))
  | .jObj _ => some (.vNonPrim "[object Object]")

def jstrFieldOf (fs : List (String × Json)) (k : String) : Option String :=
  match jfieldOf fs k with
  | some (.jStr s) => some s
  | _ => none

def jstrField (j : Json) (k : String) : Option String :=
  match jfield j k with
  | some (.jStr s) => some s
  | _ => none

def jboolField (j : Json) (k : String) : Option Bool :=
  match jfield j k with
  | some (.jBool b) => some b
  | _ => none

/-- View a parsed JSON object as a `Candidate`, the way `cleanVideoData`
reads its fields.  String-typed fields are taken when they hold strings (a
truthy non-string there would make the source throw inside its try/catch);
the opaque `attributes` mapping keeps its string-valued entries. -/
def candidateOfJson (j : Json) : Candidate :=
  { id := (jfield j "id").bind jvalOfJson
    title := jstrField j "title"
    duration := (jfield j "duration").bind jvalOfJson
    created := (jfield j "created").bind jvalOfJson
    videoType := jstrField j "videoType"
    pageURL := jstrField j "pageURL"
    thumbURL := jstrField j "thumbURL"
    previewThumbURL := jstrField j "previewThumbURL"
    imageURL := jstrField j "imageURL"
    spriteURL := jstrField j "spriteURL"
    trailerURL := jstrField j "trailerURL"
    trailerFallbackUrl := jstrField j "trailerFallbackUrl"
    views := (jfield j "views").bind jvalOfJson
    landing :=
      (match jfield j "landing" with
       | some (.jObj fs) =>
         some { type := jstrFieldOf fs "type"
                id := (jfieldOf fs "id").bind jvalOfJson
                name := jstrFieldOf fs "name"
                logo := jstrFieldOf fs "logo"
                link := jstrFieldOf fs "link" }
       | _ => none)
    isThumbCustom := jboolField j "isThumbCustom"
    isAdminCustomThumb := jboolField j "isAdminCustomThumb"
    userCountry := jstrField j "userCountry"
    attributes :=
      (match jfield j "attributes" with
       | some (.jObj fs) =>
         some (fs.filterMap (fun p =>
           match p.2 with
           | .jStr s => some (p.1, s)
           | _ => none))
       | _ => none)
    classes := jstrField j "classes" }

/-! ### A small backtracking regex engine

The extraction code is built on JavaScript regexes; the engine below covers
exactly the constructs those patterns use (literals, character classes,
sequencing, ordered alternation, greedy and lazy star, numbered groups) with
the JavaScript leftmost-match backtracking order. -/

inductive RE where
  | eps
  | lit (c : Char)
  | cls (f : Char → Bool)
  | seq (a b : RE)
  | alt (a b : RE)
  | star (greedy : Bool) (a : RE)
  | group (idx : Nat) (a : RE)

/-- Captures: group index paired with the captured characters; the most
recent capture of a group sits first. -/
def Caps : Type := List (Nat × List Char)

/-- Fueled CPS backtracking matcher: `reM fuel r s caps k` matches `r` at
the start of `s` and hands the rest plus captures to `k`; a `none` from `k`
makes the engine backtrack.  Star iterations demand progress, so the
(generous) fuel only guards termination. -/
def reM {α : Type} : Nat → RE → List Char → Caps →
    (List Char → Caps → Option α) → Option α
  | 0, _, _, _, _ => none
  | fuel + 1, r, s, caps, k =>
    match r with
    | .eps => k s caps
    | .lit c =>
      match s with
      | [] => none
      | x :: xs => if x = c then k xs caps else none
    | .cls f =>
      match s with
      | [] => none
      | x :: xs => if f x then k xs caps else none
    | .seq a b => reM fuel a s caps (fun s1 c1 => reM fuel b s1 c1 k)
    | .alt a b =>
      match reM fuel a s caps k with
      | some res => some res
      | none => reM fuel b s caps k
    | .star greedy a =>
      if greedy then
        match
          reM fuel a s caps (fun s1 c1 =>
            if s1.length < s.length then reM fuel (.star true a) s1 c1 k
            else none) with
        | some res => some res
        | none => k s caps
      else
        match k s caps with
        | some res => some res
        | none =>
          reM fuel a s caps (fun s1 c1 =>
            if s1.length < s.length then reM fuel (.star false a) s1 c1 k
            else none)
    | .group i a =>
      reM fuel a s caps (fun s1 c1 =>
        k s1 ((i, s.take (s.length - s1.length)) :: c1))

def reSize : RE → Nat
  | .eps => 1
  | .lit _ => 1
  | .cls _ => 1
  | .seq a b => reSize a + reSize b + 1
  | .alt a b => reSize a + reSize b + 1
  | .star _ a => reSize a + 1
  | .group _ a => reSize a + 1

def reFuel (r : RE) (l : List Char) : Nat := (reSize r + 2) * (l.length + 2)

/-- Match anchored at the start of `s`: consumed length and captures. -/
def reMatchAt (r : RE) (s : List Char) : Option (Nat × Caps) :=
  reM (reFuel r s) r s [] (fun rest caps => some (s.length - rest.length, caps))

/-- Leftmost match anywhere in the input: the prefix before the match, the
matched length, and the captures. -/
def reSearch (r : RE) : List Char → Option (List Char × Nat × Caps)
  | [] => (reMatchAt r []).map (fun p => (([] : List Char), p.1, p.2))
  | c :: cs =>
    match reMatchAt r (c :: cs) with
    | some (n, caps) => some ([], n, caps)
    | none => (reSearch r cs).map (fun p => (c :: p.1, p.2.1, p.2.2))

def capGet (caps : Caps) (i : Nat) : Option (List Char) :=
  ((List.find? (fun p => p.1 == i) caps)).map (fun p => p.2)

def capStr (caps : Caps) (i : Nat) : String :=
  String.mk ((capGet caps i).getD [])

/-- The `regex.exec` loop over a `/g` regex: successive non-overlapping
leftmost matches, resuming after each match end. -/
def reFindAllAux (r : RE) : Nat → List Char → List Caps
  | 0, _ => []
  | fuel + 1, l =>
    match reSearch r l with
    | none => []
    | some (pre, n, caps) =>
      let next := if n = 0 then pre.length + 1 else pre.length + n
      caps :: reFindAllAux r fuel (l.drop next)

def reFindAll (r : RE) (l : List Char) : List Caps :=
  reFindAllAux r (l.length + 1) l

/-- `str.replace(re-with-g, template)`: every replaced pattern in the source
is non-empty, so a zero-length match (never reached) just stops. -/
def reReplaceAllAux (r : RE) (build : Caps → List Char) :
    Nat → List Char → List Char
  | 0, l => l
  | fuel + 1, l =>
    match reSearch r l with
    | none => l
    | some (pre, n, caps) =>
      if n = 0 then l
      else pre ++ build caps ++
        reReplaceAllAux r build fuel (l.drop (pre.length + n))

def reReplaceAll (r : RE) (build : Caps → List Char) (l : List Char) :
    List Char :=
  reReplaceAllAux r build (l.length + 1) l

/-! Pattern-building helpers. -/

def rstr (s : String) : RE := s.toList.foldr (fun c acc => .seq (.lit c) acc) .eps

/-- JavaScript `\s`. -/
def jsRegexWs (c : Char) : Bool := jsWsChar c || c = Char.ofNat 65279

def rws : RE := .cls jsRegexWs

def rwsStar : RE := .star true rws

def rdigit : RE := .cls Char.isDigit

/-- `\d+`. -/
def rdigits1 : RE := .seq rdigit (.star true rdigit)

/-- `[^}]`. -/
def rnotBrace : RE := .cls (fun c => c != rbrace)

/-- `[^"]`. -/
def rnotQuote : RE := .cls (fun c => c != '"')

/-- `[\s\S]` (also `.` under the `s` flag). -/
def rany : RE := .cls (fun _ => true)

/-- `[\s\S]*?`. -/
def lazyAny : RE := .star false rany

def rseq (l : List RE) : RE := l.foldr .seq .eps

/-! ### The shared string cleanups -/

/-- `str.replace(/,\s*]/g, ']')`. -/
def removeTrailingCommaBracket (l : List Char) : List Char :=
  reReplaceAll (rseq [.lit ',', rwsStar, .lit ']']) (fun _ => [']']) l

/-- `str.replace(/,\s*}/g, '}')`. -/
def removeTrailingCommaBrace (l : List Char) : List Char :=
  reReplaceAll (rseq [.lit ',', rwsStar, .lit rbrace]) (fun _ => [rbrace]) l

def identStartChar (c : Char) : Bool := c.isAlpha || c = '_'

def identChar (c : Char) : Bool := c.isAlphanum || c = '_'

/-- `/([{,])\s*([a-zA-Z_][a-zA-Z0-9_]*):/g`. -/
def quoteKeysRE : RE :=
  rseq [.group 1 (.alt (.lit lbrace) (.lit ',')), rwsStar,
    .group 2 (.seq (.cls identStartChar) (.star true (.cls identChar))),
    .lit ':']

/-- `str.replace(quoteKeysRE, '$1"$2":')` — quote unquoted object keys. -/
def quoteKeys (l : List Char) : List Char :=
  reReplaceAll quoteKeysRE
    (fun caps =>
      (capGet caps 1).getD [] ++ '"' :: (capGet caps 2).getD [] ++ ['"', ':'])
    l

/-! ### The id-synthesis hash -/

/-- Normalize to a 32-bit signed integer (the effect of `a & a` and of the
shift operand conversion in JavaScript). -/
def toInt32 (n : Int) : Int :=
  let m := n % 4294967296
  if m ≥ 2147483648 then m - 4294967296 else m

/-- One step of `a = ((a << 5) - a) + charCode; a & a`. -/
def hashStep (a : Int) (c : Char) : Int :=
  toInt32 (toInt32 (a * 32) - a + (c.toNat : Int))

/-- The `reduce`-based rolling 32-bit string hash used to synthesize ids. -/
def jsHash (l : List Char) : Int := l.foldl hashStep 0

def jnumToJVal : JNum → JVal
  | .int n => .vInt n
  | _ => .vNaN

/-! ### `parseVideoArray` (details.js lines 241-359) -/

/-- The six-field recovery regex of `parseVideoArray` (line 271). -/
def videoRegexRE : RE :=
  rseq [rstr "\"id\":", rwsStar, .group 1 rdigits1,
    .star false rnotBrace, rstr "\"title\":", rwsStar, .lit '"',
    .group 2 (.star true rnotQuote), .lit '"',
    .star false rnotBrace, rstr "\"pageURL\":", rwsStar, .lit '"',
    .group 3 (.star true rnotQuote), .lit '"',
    .star false rnotBrace, rstr "\"thumbURL\":", rwsStar, .lit '"',
    .group 4 (.star true rnotQuote), .lit '"',
    .star false rnotBrace, rstr "\"duration\":", rwsStar, .group 5 rdigits1,
    .star false rnotBrace, rstr "\"views\":", rwsStar, .group 6 rdigits1]

/-- The object built from one regex match (lines 276-283). -/
def videoOfRegexMatch (caps : Caps) : Candidate :=
  { emptyCandidate with
    id := some (.vInt (digitsToNat ((capGet caps 1).getD []) : Nat))
    title := some (capStr caps 2)
    pageURL := some (capStr caps 3)
    thumbURL := some (capStr caps 4)
    duration := some (.vInt (digitsToNat ((capGet caps 5).getD []) : Nat))
    views := some (.vInt (digitsToNat ((capGet caps 6).getD []) : Nat)) }

/-- The regex recovery pass: every global match whose six fields are all
truthy (so a zero `id`, `duration` or `views` is dropped here). -/
def videoRegexCandidates (l : List Char) : List Candidate :=
  (reFindAll videoRegexRE l).filterMap (fun caps =>
    let v := videoOfRegexMatch caps
    if optValTruthy v.id && optStrTruthy v.title && optStrTruthy v.pageURL &&
        optStrTruthy v.thumbURL && optValTruthy v.duration &&
        optValTruthy v.views
    then some v else none)

/-- The manual bracket-counting state machine (lines 295-349): escape and
string state, an `Int` brace depth (JavaScript lets it go negative), and the
currently collected top-level `{...}` span, reversed. -/
def bracketSpans : List Char → Bool → Bool → Int → Option (List Char) →
    List (List Char)
  | [], _, _, _, _ => []
  | c :: cs, esc, inStr, depth, cur =>
    if esc then bracketSpans cs false inStr depth (cur.map (c :: ·))
    else if c = '\\' then bracketSpans cs true inStr depth (cur.map (c :: ·))
    else
      let inStr2 := if c = '"' then !inStr else inStr
      if inStr2 then bracketSpans cs false inStr2 depth (cur.map (c :: ·))
      else if c = lbrace then
        if depth = 0 then bracketSpans cs false inStr2 (depth + 1) (some [c])
        else bracketSpans cs false inStr2 (depth + 1) (cur.map (c :: ·))
      else if c = rbrace then
        let depth2 := depth - 1
        match cur with
        | some buf =>
          if depth2 = 0 then
            (c :: buf).reverse :: bracketSpans cs false inStr2 depth2 none
          else bracketSpans cs false inStr2 depth2 (some (c :: buf))
        | none => bracketSpans cs false inStr2 depth2 none
      else bracketSpans cs false inStr2 depth (cur.map (c :: ·))

/-- The bracket-counting fallback: each top-level span is trimmed, gets only
the key-quoting fix (trailing commas are not removed here), and is kept when
it parses to an object with truthy id, title and pageURL. -/
def bracketCandidates (l : List Char) : List Candidate :=
  (bracketSpans l false false 0 none).filterMap (fun span =>
    match jsonParse (String.mk (quoteKeys (jsTrim (String.mk span)).toList)) with
    | some obj =>
      if jOptTruthy (jfield obj "id") && jOptTruthy (jfield obj "title") &&
          jOptTruthy (jfield obj "pageURL")
      then some (candidateOfJson obj) else none
    | none => none)

/-- `parseVideoArray`: strict parse of the repaired array text, else the
regex recovery, else bracket counting; the two fallbacks run on the original
(unrepaired) string. -/
def parseVideoArray (videosArrayStr : String) : List Candidate :=
  let cleanArrayStr :=
    quoteKeys (removeTrailingCommaBrace
      (removeTrailingCommaBracket (jsTrim videosArrayStr).toList))
  match jsonParse (String.mk cleanArrayStr) with
  | some (.jArr videosArray) =>
    (videosArray.filter (fun v =>
      jTruthy v && jOptTruthy (jfield v "id") &&
        jOptTruthy (jfield v "title") &&
        jOptTruthy (jfield v "pageURL"))).map candidateOfJson
  | _ =>
    let fromRegex := videoRegexCandidates videosArrayStr.toList
    if fromRegex.isEmpty then bracketCandidates videosArrayStr.toList
    else fromRegex

/-! ### `extractRelatedVideos` (details.js lines 362-564) -/

/-- Split at the first occurrence of `pat`: the part before it and the part
after it. -/
def splitAtSub (pat : List Char) : List Char → Option (List Char × List Char)
  | [] => if pat.isEmpty then some ([], []) else none
  | c :: cs =>
    if pat.isPrefixOf (c :: cs) then some ([], (c :: cs).drop pat.length)
    else (splitAtSub pat cs).map (fun p => (c :: p.1, p.2))

/-- Model of cheerio's `$('script')` contents for plain well-formed markup:
the text of each `<script ...>` tag up to its `</script>`. -/
def detailsScriptsAux : Nat → List Char → List String
  | 0, _ => []
  | fuel + 1, l =>
    match splitAtSub "<script".toList l with
    | none => []
    | some (_, rest) =>
      let afterTag := (rest.dropWhile (fun c => c != '>')).drop 1
      match splitAtSub "</script>".toList afterTag with
      | none => []
      | some (content, rest2) =>
        String.mk content :: detailsScriptsAux fuel rest2

def scriptContentsOf (html : String) : List String :=
  detailsScriptsAux (html.toList.length + 1) html.toList

/-- Method 1's scope pattern (details.js line 376). -/
def relatedComponentRE : RE :=
  rseq [rstr "\"relatedVideosComponent\":", rwsStar, .lit lbrace,
    .star true rnotBrace,
    rstr "\"videoTabInitialData\":", rwsStar, .lit lbrace,
    .star true rnotBrace,
    rstr "\"videoListProps\":", rwsStar, .lit lbrace, .star true rnotBrace,
    rstr "\"videoThumbProps\":", rwsStar,
    .group 1 (rseq [.lit '[', lazyAny, .lit ']']), rwsStar, .lit rbrace]

/-- Method 2's scope pattern (details.js line 400). -/
def videoTabRE : RE :=
  rseq [rstr "\"videoTabInitialData\":", rwsStar, .lit lbrace,
    .star true rnotBrace,
    rstr "\"videoListProps\":", rwsStar, .lit lbrace, .star true rnotBrace,
    rstr "\"videoThumbProps\":", rwsStar,
    .group 1 (rseq [.lit '[', lazyAny, .lit ']']), rwsStar, .lit rbrace]

/-- Method 3's pattern (details.js line 425), also search strategy 2's
(search.js line 44). -/
def videoThumbPropsRE : RE :=
  rseq [rstr "\"videoThumbProps\":", rwsStar,
    .group 1 (rseq [.lit '[', lazyAny, .lit ']']), rwsStar, .lit rbrace]

/-- Method 1 (details.js lines 370-391): every script tag containing the
`relatedVideosComponent` marker contributes its parsed array. -/
def method1Videos : List String → List Candidate
  | [] => []
  | s :: ss =>
    (if strContains s "\"relatedVideosComponent\"" then
      match reSearch relatedComponentRE s.toList with
      | some (_, _, caps) => parseVideoArray (capStr caps 1)
      | none => []
    else []) ++ method1Videos ss

/-- Method 2 (details.js lines 394-416). -/
def method2Videos : List String → List Candidate
  | [] => []
  | s :: ss =>
    (if strContains s "\"videoTabInitialData\"" then
      match reSearch videoTabRE s.toList with
      | some (_, _, caps) => parseVideoArray (capStr caps 1)
      | none => []
    else []) ++ method2Videos ss

/-- Method 3 (details.js lines 419-441). -/
def method3Videos : List String → List Candidate
  | [] => []
  | s :: ss =>
    (if strContains s "\"videoThumbProps\"" then
      match reSearch videoThumbPropsRE s.toList with
      | some (_, _, caps) => parseVideoArray (capStr caps 1)
      | none => []
    else []) ++ method3Videos ss

def ralnum : RE := .cls Char.isAlphanum

/-- `/[a-zA-Z0-9]{7,}/`. -/
def alnum7RE : RE :=
  rseq [ralnum, ralnum, ralnum, ralnum, ralnum, ralnum, ralnum,
    .star true ralnum]

/-- Method 4's id synthesis (details.js lines 492-500): hash of the first
run of seven or more alphanumerics in the page URL. -/
def domIdSynthDetails (v : Candidate) : Candidate :=
  if !optValTruthy v.id && optStrTruthy v.pageURL then
    let url := v.pageURL.getD ""
    match reSearch alnum7RE url.toList with
    | some (pre, n, _) =>
      let matched := (url.toList.drop pre.length).take n
      { v with id := some (.vInt ((jsHash matched).natAbs : Int)) }
    | none => v
  else v

/-- Method 4 (details.js lines 444-509): the per-card cheerio extraction is
abstracted as the already-built card list; the id synthesis and the
essential-fields push guard (line 503) are embedded. -/
def domMethodVideos : List Candidate → List Candidate
  | [] => []
  | v :: vs =>
    let v2 := domIdSynthDetails v
    (if optStrTruthy v2.title && optStrTruthy v2.pageURL &&
        optStrTruthy v2.thumbURL
    then [v2] else []) ++ domMethodVideos vs

/-- Method 5's first whole-document pattern (details.js line 517). -/
def patternARE : RE :=
  rseq [rstr "\"id\":", rwsStar, .group 1 rdigits1, .star false rnotBrace,
    rstr "\"title\":", rwsStar, .lit '"', .group 2 (.star true rnotQuote),
    .lit '"', .star false rnotBrace,
    rstr "\"pageURL\":", rwsStar, .lit '"', .group 3 (.star true rnotQuote),
    .lit '"', .star false rnotBrace,
    rstr "\"thumbURL\":", rwsStar, .lit '"', .group 4 (.star true rnotQuote),
    .lit '"', .star false rnotBrace,
    rstr "\"duration\":", rwsStar, .group 5 rdigits1]

/-- Method 5's second whole-document pattern (details.js line 518). -/
def patternBRE : RE :=
  rseq [rstr "\"title\":", rwsStar, .lit '"', .group 1 (.star true rnotQuote),
    .lit '"', .star false rnotBrace,
    rstr "\"pageURL\":", rwsStar, .lit '"', .group 2 (.star true rnotQuote),
    .lit '"', .star false rnotBrace,
    rstr "\"thumbURL\":", rwsStar, .lit '"', .group 3 (.star true rnotQuote),
    .lit '"', .star false rnotBrace,
    rstr "\"duration\":", rwsStar, .group 4 rdigits1]

/-- The loop body of method 5 (details.js lines 524-534) instantiated to
pattern A, where `match[1]` is the (always truthy) id digit run. -/
def patternAVideo (caps : Caps) : Candidate :=
  { emptyCandidate with
    id := some (.vInt (digitsToNat ((capGet caps 1).getD []) : Nat))
    title := some (capStr caps 2)
    pageURL := some (capStr caps 3)
    thumbURL := some (capStr caps 4)
    duration := some (jnumToJVal (parseIntStr (capStr caps 5))) }

/-- The same loop body instantiated to pattern B, where `match[1]` is the
title capture and `match[5]` is undefined — reproducing the source's
shifted field assignments on this branch. -/
def patternBVideo (caps : Caps) : Candidate :=
  let g1 := capStr caps 1
  if g1 != "" then
    { emptyCandidate with
      id := some (jnumToJVal (parseIntStr g1))
      title := some (capStr caps 2)
      pageURL := some (capStr caps 3)
      thumbURL := some (capStr caps 4)
      duration := some .vNaN }
  else
    { emptyCandidate with
      id := some (.vInt ((jsHash (capStr caps 2).toList).natAbs : Int))
      title := some ""
      pageURL := some (capStr caps 2)
      thumbURL := some (capStr caps 3)
      duration := some (jnumToJVal (parseIntStr (capStr caps 4))) }

/-- Method 5's push guard (details.js line 536). -/
def method5Guard (v : Candidate) : Bool :=
  optStrTruthy v.title && optStrTruthy v.pageURL && optStrTruthy v.thumbURL &&
    strContains (v.pageURL.getD "") "/videos/"

/-- Method 5 (details.js lines 512-547): both patterns run over the whole
document, in order, appending. -/
def method5Videos (html : List Char) : List Candidate :=
  (reFindAll patternARE html).filterMap (fun caps =>
    let v := patternAVideo caps
    if method5Guard v then some v else none) ++
  (reFindAll patternBRE html).filterMap (fun caps =>
    let v := patternBVideo caps
    if method5Guard v then some v else none)

/-- The candidate accumulation of `extractRelatedVideos` (details.js lines
365-549): each later method runs only while the collection is still empty;
within a method the finds of every matching script tag are appended. -/
def relatedCandidates (dom : String → List Candidate) (html : String) :
    List Candidate :=
  let scripts := scriptContentsOf html
  let v1 := method1Videos scripts
  let v2 := if v1.isEmpty then v1 ++ method2Videos scripts else v1
  let v3 := if v2.isEmpty then v2 ++ method3Videos scripts else v2
  let v4 := if v3.isEmpty then v3 ++ domMethodVideos (dom html) else v3
  if v4.isEmpty then v4 ++ method5Videos html.toList else v4

/-- `extractRelatedVideos` (details.js lines 552-558): clean every candidate
and drop the rejects. -/
def extractRelatedVideos (dom : String → List Candidate) (html : String) :
    List CleanedVideo :=
  (relatedCandidates dom html).filterMap cleanVideoData

/-! ### `extractSearchResults` (search.js lines 9-139) -/

/-- `/<script[^>]*>([\s\S]*?)<\/script>/g`. -/
def searchScriptTagRE : RE :=
  rseq [rstr "<script", .star true (.cls (fun c => c != '>')), .lit '>',
    .group 1 lazyAny, rstr "</script>"]

/-- `html.match(scriptTagRE)` followed by the per-tag `$1` replacement:
the contents of each script tag. -/
def searchScriptContents (html : String) : List String :=
  (reFindAll searchScriptTagRE html.toList).map (fun caps => capStr caps 1)

/-- `/"searchResult":\s*({.*?"videoThumbProps":\s*\[.*?\]}),/s`
(search.js line 12). -/
def searchResultRE : RE :=
  rseq [rstr "\"searchResult\":", rwsStar,
    .group 1 (rseq [.lit lbrace, lazyAny, rstr "\"videoThumbProps\":",
      rwsStar, .lit '[', lazyAny, .lit ']', .lit rbrace]),
    .lit ',']

/-- Search strategy 1 (search.js lines 12-35): `none` means fall through to
the next strategy (no match, parse failure, or a non-array field). -/
def searchStrat1 (html : String) : Option (List CleanedVideo) :=
  match reSearch searchResultRE html.toList with
  | none => none
  | some (_, _, caps) =>
    let jsonStr := quoteKeys (removeTrailingCommaBracket
      (removeTrailingCommaBrace (capStr caps 1).toList))
    match jsonParse (String.mk jsonStr) with
    | some data =>
      match jfield data "videoThumbProps" with
      | some (.jArr xs) =>
        some ((xs.map candidateOfJson).filterMap cleanVideoData)
      | _ => none
    | none => none

/-- Search strategy 2 (search.js lines 38-67): the first script tag whose
`videoThumbProps` array parses strictly returns (even when the cleaned list
is empty); any failure moves to the next script tag. -/
def searchStrat2 : List String → Option (List CleanedVideo)
  | [] => none
  | s :: rest =>
    if strContains s "\"videoThumbProps\"" then
      match reSearch videoThumbPropsRE s.toList with
      | some (_, _, caps) =>
        let arrayStr := quoteKeys (removeTrailingCommaBrace
          (removeTrailingCommaBracket (capStr caps 1).toList))
        match jsonParse (String.mk arrayStr) with
        | some (.jArr xs) =>
          some ((xs.map candidateOfJson).filterMap cleanVideoData)
        | some _ => searchStrat2 rest
        | none => searchStrat2 rest
      | none => searchStrat2 rest
    else searchStrat2 rest

/-- `/\/(\d+)/`. -/
def slashDigitsRE : RE := rseq [.lit '/', .group 1 rdigits1]

/-- `url.split('/').pop() || ''`. -/
def lastSlashComponent (s : String) : String :=
  String.mk ((splitOnChar '/' s.toList).getLastD [])

/-- Search strategy 3's id synthesis (search.js lines 114-127): slug hash
plus a sub-second timestamp component `now % 1000000`. -/
def searchIdSynth (now : Int) (v : Candidate) : Candidate :=
  if !optValTruthy v.id && optStrTruthy v.pageURL then
    let url := v.pageURL.getD ""
    if (reSearch slashDigitsRE url.toList).isSome ||
        (reSearch alnum7RE url.toList).isSome then
      { v with id := some (.vInt
          (((jsHash (lastSlashComponent url).toList).natAbs : Int) +
            now % 1000000)) }
    else v
  else v

/-- Search strategy 3 (search.js lines 70-134): the per-card cheerio
extraction is abstracted as the card list; the `/videos/` guard, id
synthesis, and clean-then-push are embedded. -/
def searchStrat3 (now : Int) : List Candidate → List CleanedVideo
  | [] => []
  | v :: vs =>
    if !(optStrTruthy v.pageURL &&
        strContains (v.pageURL.getD "") "/videos/") then
      searchStrat3 now vs
    else
      let v2 := searchIdSynth now v
      match cleanVideoData v2 with
      | some c => c :: searchStrat3 now vs
      | none => searchStrat3 now vs

/-- `extractSearchResults`: the three strategies with early exit. -/
def extractSearchResults (dom : String → List Candidate) (now : Int)
    (html : String) : List CleanedVideo :=
  match searchStrat1 html with
  | some r => r
  | none =>
    match searchStrat2 (searchScriptContents html) with
    | some r => r
    | none => searchStrat3 now (dom html)

/-! ### Endpoint-level deduplication, filtering, stats, route guard -/

/-- The composite dedup key `${video.id}-${video.title}-${video.pageURL}`
(details.js line 611, search.js line 215). -/
def relKey (v : CleanedVideo) : String :=
  jnumToString v.id ++ "-" ++ v.title ++ "-" ++ v.pageURL

/-- The skip-invalid guard of both dedup loops
(`!video.id || !video.title || !video.pageURL`). -/
def dedupGuardB (v : CleanedVideo) : Bool :=
  jnumTruthy v.id && v.title != "" && v.pageURL != ""

/-- The related-videos dedup loop (details.js lines 601-622): drop a record
only when its exact composite key was already kept. -/
def relatedDedupAux (seen : List String) :
    List CleanedVideo → List CleanedVideo
  | [] => []
  | v :: vs =>
    if !dedupGuardB v then relatedDedupAux seen vs
    else if relKey v ∈ seen then relatedDedupAux seen vs
    else v :: relatedDedupAux (relKey v :: seen) vs

def relatedDedup (l : List CleanedVideo) : List CleanedVideo :=
  relatedDedupAux [] l

/-- The search dedup loop (search.js lines 203-229): drop a record when its
id alone, title alone, or pageURL alone was already kept. -/
def searchDedupAux (ids : List JNum) (titles urls : List String) :
    List CleanedVideo → List CleanedVideo
  | [] => []
  | v :: vs =>
    if !dedupGuardB v then searchDedupAux ids titles urls vs
    else if v.id ∈ ids ∨ v.title ∈ titles ∨ v.pageURL ∈ urls then
      searchDedupAux ids titles urls vs
    else
      v :: searchDedupAux (v.id :: ids) (v.title :: titles)
        (v.pageURL :: urls) vs

def searchDedup (l : List CleanedVideo) : List CleanedVideo :=
  searchDedupAux [] [] [] l

/-- The completeness filter predicate (search.js lines 234-243, details.js
lines 627-636). -/
def completeB (v : CleanedVideo) : Bool :=
  jnumTruthy v.id && v.title != "" && jnumTruthy v.duration &&
    v.pageURL != "" && strContains v.pageURL "videos/" &&
    v.thumbURL != "" && decide (v.views ≠ .undefined)

def completeFilter (l : List CleanedVideo) : List CleanedVideo :=
  l.filter completeB

/-- The `meta` block of the search response (search.js lines 256-262). -/
structure SearchMeta where
  totalFound : Int
  uniqueVideos : Int
  completeVideos : Int
  duplicatesRemoved : Int
  filtered : Int
deriving DecidableEq, Repr

def searchMeta (results : List CleanedVideo) : SearchMeta :=
  let uniq := searchDedup results
  let complete := completeFilter uniq
  { totalFound := (results.length : Int)
    uniqueVideos := (uniq.length : Int)
    completeVideos := (complete.length : Int)
    duplicatesRemoved := (results.length : Int) - (uniq.length : Int)
    filtered := (uniq.length : Int) - (complete.length : Int) }

/-- The `meta` block of the details response (details.js lines 645-652). -/
structure DetailsMeta where
  totalRelated : Int
  uniqueRelated : Int
  completeRelated : Int
  filteredRelated : Int
  duplicatesRemoved : Int
deriving DecidableEq, Repr

def detailsMeta (related : List CleanedVideo) : DetailsMeta :=
  let uniq := relatedDedup related
  let complete := completeFilter uniq
  { totalRelated := (related.length : Int)
    uniqueRelated := (uniq.length : Int)
    completeRelated := (complete.length : Int)
    filteredRelated := (uniq.length : Int) - (complete.length : Int)
    duplicatesRemoved := (related.length : Int) - (uniq.length : Int) }

/-- Outcome of the outbound fetch, abstract for the route model. -/
inductive FetchResult where
  | success (html : String)
  | httpError (status : Nat)
  | networkError (msg : String)

/-- Route outcomes at the granularity the details handler distinguishes. -/
inductive RouteOutcome (α : Type) where
  | invalidPath
  | notFound
  | serverError
  | ok (body : α)

def routeStatus {α : Type} : RouteOutcome α → Nat
  | .invalidPath => 400
  | .notFound => 404
  | .serverError => 500
  | .ok _ => 200

/-- The details route handler (details.js lines 567-663) at the level of its
control flow: the `videos/` prefix guard runs before the outbound fetch;
`fetch` abstracts the axios call and `process` abstracts everything computed
from a successfully fetched body. -/
def detailsRoute {α : Type} (fetch : String → FetchResult)
    (process : String → RouteOutcome α) (path : String) : RouteOutcome α :=
  if !strStartsWith path "videos/" then .invalidPath
  else
    match fetch ("https://xhamster19.com/" ++ path) with
    | .success html => process html
    | .httpError s => if s = 404 then .notFound else .serverError
    | .networkError _ => .serverError

/-! ### Specification-side characterizations (for comparison theorems) -/

/-- Does the regex `/\/videos\/([^\/]+)/` match at index `i`: the literal
`/videos/` followed by at least one non-`/` character. -/
def matchAtB (l : List Char) (i : Nat) : Bool :=
  vidLit.isPrefixOf (l.drop i) &&
    !(((l.drop i).drop 8).takeWhile (fun x => x != '/')).isEmpty

/-- The captured segment at index `i`: the maximal non-`/` run after the
literal. -/
def evpSegAt (l : List Char) (i : Nat) : List Char :=
  ((l.drop i).drop 8).takeWhile (fun x => x != '/')

/-- Index-search characterization of `extractVideoPath` used for the amended
claim C2: the first index where `/videos/` is followed by a non-`/`
character, with the segment running to the next `/` or the end of the
string (so a query suffix stays inside the segment). -/
def extractVideoPathSpec (s : String) : String :=
  match (List.range s.toList.length).find? (fun i => matchAtB s.toList i) with
  | none => ""
  | some i => "videos/" ++ String.mk (evpSegAt s.toList i)

/-- Single-pass per-character CDN escaping map, the specification-side
description of what the three sequential replacements amount to. -/
def escCdnChar (c : Char) : List Char :=
  if c = '(' then "%28".toList
  else if c = ')' then "%29".toList
  else if c = ',' then "%2C".toList
  else [c]

def escCdnAll : List Char → List Char
  | [] => []
  | c :: cs => escCdnChar c ++ escCdnAll cs

/-! ### Concrete inputs for the example-based claims and witnesses -/

/-- The embedded-array string of claim C8 (unquoted keys). -/
def exC8Str : String :=
  "[\x7bid:1,title:\"A\",pageURL:\"https://x/videos/a-1\",thumbURL:\"https://cdn/x.jpg\",duration:30,views:5\x7d]"

/-- The single record C8's input cleans to. -/
def exC8Clean : CleanedVideo :=
  { id := .int 1, title := "A", duration := .int 30, created := .undefined,
    videoType := "video", pageURL := "videos/a-1",
    thumbURL := "https://cdn/x.jpg", previewThumbURL := "", imageURL := "",
    spriteURL := "", trailerURL := "", trailerFallbackUrl := "",
    views := .int 5, landing := none, isThumbCustom := false,
    isAdminCustomThumb := false, userCountry := "", attributes := [],
    classes := "" }

/-- A hydration-payload video object (valid, id 2). -/
def exVid1 : String :=
  "\x7b\"id\":2,\"title\":\"B\",\"pageURL\":\"h/videos/b-2\",\"thumbURL\":\"t\",\"duration\":30,\"views\":5\x7d"

/-- A second video object (valid, id 3). -/
def exVid2 : String :=
  "\x7b\"id\":3,\"title\":\"C\",\"pageURL\":\"h/videos/c-3\",\"thumbURL\":\"t\",\"duration\":40,\"views\":6\x7d"

/-- A details page on which strategy 1 (`relatedVideosComponent`) finds
`exVid1` and strategy 3 (general `videoThumbProps`) would also find
`exVid2`. -/
def exHtmlC3 : String :=
  "<script>\x7b\"relatedVideosComponent\": \x7b\"videoTabInitialData\": \x7b\"videoListProps\": \x7b\"videoThumbProps\": ["
    ++ exVid1 ++ "] \x7d\x7d\x7d\x7d</script><script>\x7b\"videoThumbProps\": ["
    ++ exVid2 ++ "] \x7d</script>"

/-- A fully valid cleaned record used by the dedup examples. -/
def cvBase : CleanedVideo :=
  { id := .int 1, title := "A", duration := .int 30, created := .undefined,
    videoType := "video", pageURL := "videos/a", thumbURL := "t",
    previewThumbURL := "", imageURL := "", spriteURL := "",
    trailerURL := "", trailerFallbackUrl := "", views := .int 5,
    landing := none, isThumbCustom := false, isAdminCustomThumb := false,
    userCountry := "", attributes := [], classes := "" }

/-- Same id as `cvBase`, different title and pageURL. -/
def cvSameId : CleanedVideo := { cvBase with title := "B", pageURL := "videos/b" }

/-- Same title as `cvBase`, different id and pageURL. -/
def cvSameTitle : CleanedVideo := { cvBase with id := .int 2, pageURL := "videos/b" }

/-- Same pageURL as `cvBase`, different id and title. -/
def cvSameUrl : CleanedVideo := { cvBase with id := .int 3, title := "C" }

/-- Identical to `cvBase` except for `views`. -/
def cvViewsOnly : CleanedVideo := { cvBase with views := .int 99 }

/-- Candidate used by the C1 witness. -/
def c1DemoCandidate : Candidate :=
  { emptyCandidate with
    id := some (.vInt 1), title := some "A", duration := some (.vInt 30),
    pageURL := some "https://x/videos/a-1", thumbURL := some "t",
    views := some (.vInt 5) }

/-- The record `c1DemoCandidate` cleans to. -/
def c1DemoCleaned : CleanedVideo :=
  { id := .int 1, title := "A", duration := .int 30, created := .undefined,
    videoType := "video", pageURL := "videos/a-1", thumbURL := "t",
    previewThumbURL := "", imageURL := "", spriteURL := "", trailerURL := "",
    trailerFallbackUrl := "", views := .int 5, landing := none,
    isThumbCustom := false, isAdminCustomThumb := false, userCountry := "",
    attributes := [], classes := "" }

/-! ## Helper lemmas -/

/-- The gate returns a record only when it is fully valid, unchanged. -/
theorem gateValid_some (c0 c : CleanedVideo) (h : gateValid c0 = some c) :
    sixValidB c = true ∧ c0 = c := by
  unfold gateValid at h
  by_cases hv : sixValidB c0 = true
  · rw [if_pos hv] at h
    injection h with h2
    exact ⟨h2 ▸ hv, h2⟩
  · rw [if_neg hv] at h
    exact absurd h (by simp)

/-- A record returned by `cleanVideoData` passed the six-predicate gate. -/
theorem clean_some_sixValid (v : Candidate) (c : CleanedVideo)
    (h : cleanVideoData v = some c) : sixValidB c = true := by
  cases hvp : v.pageURL with
  | none =>
    simp only [cleanVideoData, hvp] at h
    rw [if_pos (by decide)] at h
    exact absurd h (by simp)
  | some s =>
    simp only [cleanVideoData, hvp] at h
    by_cases hg : (!strContains (jsTrim s) "/videos/") = true
    · rw [if_pos hg] at h
      exact absurd h (by simp)
    · rw [if_neg hg] at h
      exact (gateValid_some _ _ h).1

/-- The pageURL of a cleaned record is an `extractVideoPath` output. -/
theorem clean_some_pageURL_shape (v : Candidate) (c : CleanedVideo)
    (h : cleanVideoData v = some c) : ∃ s, c.pageURL = extractVideoPath s := by
  cases hvp : v.pageURL with
  | none =>
    simp only [cleanVideoData, hvp] at h
    rw [if_pos (by decide)] at h
    exact absurd h (by simp)
  | some s =>
    simp only [cleanVideoData, hvp] at h
    by_cases hg : (!strContains (jsTrim s) "/videos/") = true
    · rw [if_pos hg] at h
      exact absurd h (by simp)
    · rw [if_neg hg] at h
      refine ⟨jsTrim s, ?_⟩
      rw [← (gateValid_some _ _ h).2]

/-- `extractVideoPath` is empty or starts with `videos/`. -/
theorem extractVideoPath_shape (s : String) :
    extractVideoPath s = "" ∨
      strStartsWith (extractVideoPath s) "videos/" = true := by
  unfold extractVideoPath
  split
  · exact Or.inl rfl
  · cases haux : evpAux s.toList with
    | none => simp
    | some seg =>
      right
      simp only
      unfold strStartsWith
      rw [List.isPrefixOf_iff_prefix]
      have hdata : ("videos/" ++ String.mk seg).toList = "videos/".toList ++ seg := rfl
      rw [hdata]
      exact List.prefix_append _ _

/-- `startsWith` implies `includes`. -/
theorem strContains_of_startsWith (s p : String)
    (h : strStartsWith s p = true) : strContains s p = true := by
  unfold strStartsWith at h
  unfold strContains
  cases hl : s.toList with
  | nil =>
    rw [hl] at h
    cases hp : p.toList with
    | nil => simp [containsSub, hp]
    | cons a as =>
      rw [hp] at h
      simp [List.isPrefixOf] at h
  | cons c cs =>
    rw [hl] at h
    show (p.toList.isPrefixOf (c :: cs) || containsSub p.toList cs) = true
    rw [h]
    rfl

/-! ## Claim theorems -/

/-- C1: validator totality / all-or-nothing gate — for every candidate
record, `cleanVideoData` returns either `null` or a record in which all six
required-field predicates hold simultaneously (id defined and `> 0`, title
non-empty, duration defined and `> 0`, pageURL non-empty, thumbURL
non-empty, views defined and `>= 0`). -/
theorem c1_validator_all_or_nothing (v : Candidate) (c : CleanedVideo)
    (h : cleanVideoData v = some c) :
    hasValidId c = true ∧ hasValidTitle c = true ∧ hasValidDuration c = true ∧
      hasValidPageURL c = true ∧ hasValidThumbURL c = true ∧
      hasValidViews c = true := by
  have h6 := clean_some_sixValid v c h
  simp only [sixValidB, Bool.and_eq_true] at h6
  exact ⟨h6.1.1.1.1.1, h6.1.1.1.1.2, h6.1.1.1.2, h6.1.1.2, h6.1.2, h6.2⟩

/-- Witness for C1 at a concrete candidate. -/
theorem c1_witness :
    cleanVideoData c1DemoCandidate = some c1DemoCleaned ∧
      (hasValidId c1DemoCleaned = true ∧ hasValidTitle c1DemoCleaned = true ∧
        hasValidDuration c1DemoCleaned = true ∧
        hasValidPageURL c1DemoCleaned = true ∧
        hasValidThumbURL c1DemoCleaned = true ∧
        hasValidViews c1DemoCleaned = true) :=
  ⟨by decide, c1_validator_all_or_nothing c1DemoCandidate c1DemoCleaned (by decide)⟩

/-- C2 counterexample: the claim says the query suffix is stripped, so
`canonicalizePath("https://host/videos/my-slug-1?ref=x")` would be
`"videos/my-slug-1"`; the code's `[^\/]+` capture keeps the query suffix. -/
theorem c2_counterexample :
    extractVideoPath "https://host/videos/my-slug-1?ref=x" ≠
      "videos/my-slug-1" := by decide

/-- The scan of `extractVideoPath` agrees with the leftmost-index search. -/
theorem evpAux_eq_find (l : List Char) :
    evpAux l =
      ((List.range l.length).find? (fun i => matchAtB l i)).map (evpSegAt l) := by
  induction l with
  | nil => rfl
  | cons c cs ih =>
    rw [List.length_cons, List.range_succ_eq_map]
    by_cases h0 : matchAtB (c :: cs) 0 = true
    · rw [List.find?_cons_of_pos _ h0]
      have h0' : (vidLit.isPrefixOf (c :: cs) &&
          !(((c :: cs).drop 8).takeWhile (fun x => x != '/')).isEmpty) = true := h0
      have hstep : evpAux (c :: cs) =
          some (((c :: cs).drop 8).takeWhile (fun x => x != '/')) := by
        show (if (vidLit.isPrefixOf (c :: cs) &&
              !(((c :: cs).drop 8).takeWhile (fun x => x != '/')).isEmpty) = true
            then some (((c :: cs).drop 8).takeWhile (fun x => x != '/'))
            else evpAux cs) =
          some (((c :: cs).drop 8).takeWhile (fun x => x != '/'))
        rw [if_pos h0']
      rw [hstep]
      rfl
    · rw [List.find?_cons_of_neg _ h0, List.find?_map]
      have h0n : ¬((vidLit.isPrefixOf (c :: cs) &&
          !(((c :: cs).drop 8).takeWhile (fun x => x != '/')).isEmpty) = true) := h0
      have hcomp : ((fun i => matchAtB (c :: cs) i) ∘ Nat.succ) =
          (fun i => matchAtB cs i) := by
        funext i
        simp only [Function.comp]
        unfold matchAtB
        rw [List.drop_succ_cons]
      have hstep : evpAux (c :: cs) = evpAux cs := by
        show (if (vidLit.isPrefixOf (c :: cs) &&
              !(((c :: cs).drop 8).takeWhile (fun x => x != '/')).isEmpty) = true
            then some (((c :: cs).drop 8).takeWhile (fun x => x != '/'))
            else evpAux cs) = evpAux cs
        rw [if_neg h0n]
      rw [hstep, hcomp, ih, Option.map_map]
      rfl

/-- C2 amended: the segment runs from the first `/videos/` occurrence that
is followed by a non-`/` character up to the next `/` or the end of the
string — a query suffix is not stripped (the example evaluates to
`"videos/my-slug-1?ref=x"`), and inputs with no such occurrence give the
empty string. -/
theorem c2_amended :
    extractVideoPath "https://host/videos/my-slug-1?ref=x" =
        "videos/my-slug-1?ref=x" ∧
      ∀ s : String, extractVideoPath s = extractVideoPathSpec s := by
  constructor
  · decide
  · intro s
    by_cases hs : s = ""
    · subst hs
      decide
    · unfold extractVideoPath extractVideoPathSpec
      rw [if_neg hs, evpAux_eq_find]
      cases hfind :
          (List.range s.toList.length).find? (fun i => matchAtB s.toList i) with
      | none => rfl
      | some i => rfl

/-- `replChar` distributes over append. -/
theorem replChar_append (t : Char) (r : List Char) (a b : List Char) :
    replChar t r (a ++ b) = replChar t r a ++ replChar t r b := by
  induction a with
  | nil => rfl
  | cons c cs ih => simp [replChar, ih]

/-- The three sequential replacements act on one character as the single
escaping map. -/
theorem threePass_single (c : Char) :
    replChar ',' "%2C".toList (replChar ')' "%29".toList
      (replChar '(' "%28".toList [c])) = escCdnChar c := by
  by_cases h1 : c = '('
  · subst h1; rfl
  · by_cases h2 : c = ')'
    · subst h2; rfl
    · by_cases h3 : c = ','
      · subst h3; rfl
      · simp [replChar, escCdnChar, h1, h2, h3]

/-- The composition of the three replacements equals the one-pass map. -/
theorem threePass_eq_escAll (l : List Char) :
    replChar ',' "%2C".toList (replChar ')' "%29".toList
      (replChar '(' "%28".toList l)) = escCdnAll l := by
  induction l with
  | nil => rfl
  | cons c cs ih =>
    have hsplit : replChar '(' "%28".toList (c :: cs) =
        replChar '(' "%28".toList [c] ++ replChar '(' "%28".toList cs := by
      simpa using replChar_append '(' "%28".toList [c] cs
    rw [hsplit, replChar_append, replChar_append, ih, threePass_single]
    rfl

/-- No character of an escaped string is one of the three escaped
characters. -/
theorem escAll_chars (l : List Char) (c : Char) (hc : c ∈ escCdnAll l) :
    c ≠ '(' ∧ c ≠ ')' ∧ c ≠ ',' := by
  induction l with
  | nil => simp [escCdnAll] at hc
  | cons d ds ih =>
    simp only [escCdnAll, List.mem_append] at hc
    rcases hc with hc | hc
    · by_cases h1 : d = '('
      · subst h1; simp [escCdnChar] at hc
        rcases hc with h | h | h <;> subst h <;> exact ⟨by decide, by decide, by decide⟩
      · by_cases h2 : d = ')'
        · subst h2; simp [escCdnChar] at hc
          rcases hc with h | h | h <;> subst h <;> exact ⟨by decide, by decide, by decide⟩
        · by_cases h3 : d = ','
          · subst h3; simp [escCdnChar] at hc
            rcases hc with h | h | h <;> subst h <;> exact ⟨by decide, by decide, by decide⟩
          · simp [escCdnChar, h1, h2, h3] at hc
            subst hc
            exact ⟨h1, h2, h3⟩
    · exact ih hc

/-- The map is the identity on strings free of the three characters. -/
theorem escAll_id (l : List Char)
    (h : ∀ c ∈ l, c ≠ '(' ∧ c ≠ ')' ∧ c ≠ ',') : escCdnAll l = l := by
  induction l with
  | nil => rfl
  | cons c cs ih =>
    have hc := h c (List.mem_cons_self c cs)
    have hch : escCdnChar c = [c] := by
      simp [escCdnChar, hc.1, hc.2.1, hc.2.2]
    simp only [escCdnAll, hch]
    rw [ih (fun d hd => h d (List.mem_cons_of_mem c hd))]
    rfl

theorem escAll_append (a b : List Char) :
    escCdnAll (a ++ b) = escCdnAll a ++ escCdnAll b := by
  induction a with
  | nil => rfl
  | cons c cs ih => simp [escCdnAll, ih]

/-- `includes` as an explicit split. -/
theorem containsSub_iff (pat l : List Char) :
    containsSub pat l = true ↔ ∃ a b, l = a ++ pat ++ b := by
  constructor
  · intro h
    induction l with
    | nil =>
      simp [containsSub, List.isEmpty_iff] at h
      exact ⟨[], [], by simp [h]⟩
    | cons c cs ih =>
      simp only [containsSub, Bool.or_eq_true] at h
      rcases h with h | h
      · rcases List.isPrefixOf_iff_prefix.mp h with ⟨t, ht⟩
        exact ⟨[], t, by simp [← ht]⟩
      · rcases ih h with ⟨a, b, hab⟩
        exact ⟨c :: a, b, by simp [hab]⟩
  · rintro ⟨a, b, rfl⟩
    induction a with
    | nil =>
      show containsSub pat (pat ++ b) = true
      cases pat with
      | nil =>
        cases b with
        | nil => rfl
        | cons d ds =>
          show (([] : List Char).isPrefixOf (d :: ds) ||
            containsSub [] ds) = true
          rfl
      | cons x xs =>
        have hpre : (x :: xs).isPrefixOf ((x :: xs) ++ b) = true :=
          List.isPrefixOf_iff_prefix.mpr (List.prefix_append _ _)
        show ((x :: xs).isPrefixOf (x :: (xs ++ b)) ||
          containsSub (x :: xs) (xs ++ b)) = true
        rw [List.cons_append] at hpre
        rw [hpre]
        rfl
    | cons c cs ih =>
      show (pat.isPrefixOf (c :: (cs ++ pat ++ b)) ||
        containsSub pat (cs ++ pat ++ b)) = true
      rw [ih]
      simp

/-- The CDN host literal contains none of the escaped characters. -/
theorem cdnLit_chars :
    ∀ c ∈ "xhpingcdn.com".toList, c ≠ '(' ∧ c ≠ ')' ∧ c ≠ ',' := by decide

/-- Escaping preserves the CDN-host substring. -/
theorem escAll_preserves_contains (l : List Char)
    (h : containsSub "xhpingcdn.com".toList l = true) :
    containsSub "xhpingcdn.com".toList (escCdnAll l) = true := by
  rcases (containsSub_iff _ _).mp h with ⟨a, b, rfl⟩
  rw [escAll_append, escAll_append, escAll_id _ cdnLit_chars]
  exact (containsSub_iff _ _).mpr ⟨escCdnAll a, escCdnAll b, rfl⟩

/-- Escaping an escaped string is a no-op. -/
theorem escAll_escAll (l : List Char) :
    escCdnAll (escCdnAll l) = escCdnAll l :=
  escAll_id _ (fun c hc => escAll_chars l c hc)

/-- C6: CDN escaping is idempotent; a URL not containing the CDN host
passes through unchanged; on the CDN host exactly the characters `(`, `)`
and `,` are percent-escaped (the single-pass map `escCdnAll`). -/
theorem c6_cdn_escaping (u : String) :
    formatThumbnailUrl (formatThumbnailUrl u) = formatThumbnailUrl u ∧
      (strContains u "xhpingcdn.com" = false → formatThumbnailUrl u = u) ∧
      (strContains u "xhpingcdn.com" = true →
        (formatThumbnailUrl u).toList = escCdnAll u.toList) := by
  have hnoop : ∀ w : String, strContains w "xhpingcdn.com" = false →
      formatThumbnailUrl w = w := by
    intro w hw
    unfold formatThumbnailUrl
    rw [if_pos]
    rw [hw]
    simp
  have hesc : ∀ w : String, strContains w "xhpingcdn.com" = true →
      (formatThumbnailUrl w).toList = escCdnAll w.toList := by
    intro w hw
    have hne : ¬(w = "") := by
      intro he
      subst he
      exact absurd hw (by decide)
    unfold formatThumbnailUrl
    rw [if_neg (by rw [hw]; simp [hne])]
    show replChar ',' "%2C".toList (replChar ')' "%29".toList
      (replChar '(' "%28".toList w.toList)) = escCdnAll w.toList
    exact threePass_eq_escAll _
  refine ⟨?_, hnoop u, hesc u⟩
  by_cases hc : strContains u "xhpingcdn.com" = true
  · have h1 := hesc u hc
    have hc2 : strContains (formatThumbnailUrl u) "xhpingcdn.com" = true := by
      unfold strContains
      rw [h1]
      unfold strContains at hc
      exact escAll_preserves_contains _ hc
    have h2 := hesc _ hc2
    apply String.ext
    show (formatThumbnailUrl (formatThumbnailUrl u)).toList =
      (formatThumbnailUrl u).toList
    rw [h2, h1, escAll_escAll]
  · have hcf : strContains u "xhpingcdn.com" = false := by
      revert hc
      cases strContains u "xhpingcdn.com" <;> simp
    rw [hnoop u hcf]
    rw [hnoop u hcf]

/-- Witness for C6's conditional conjuncts at concrete URLs. -/
theorem c6_witness :
    (formatThumbnailUrl "https://xhpingcdn.com/a(b),c.jpg").toList =
        escCdnAll "https://xhpingcdn.com/a(b),c.jpg".toList ∧
      formatThumbnailUrl "https://other.com/a(b).jpg" =
        "https://other.com/a(b).jpg" :=
  ⟨(c6_cdn_escaping "https://xhpingcdn.com/a(b),c.jpg").2.2 (by decide),
    (c6_cdn_escaping "https://other.com/a(b).jpg").2.1 (by decide)⟩

/-- The related dedup output is a subsequence of its input. -/
theorem relatedDedupAux_sublist (seen : List String) (l : List CleanedVideo) :
    (relatedDedupAux seen l).Sublist l := by
  induction l generalizing seen with
  | nil => simp [relatedDedupAux]
  | cons v vs ih =>
    simp only [relatedDedupAux]
    split
    · exact (ih seen).cons v
    · split
      · exact (ih seen).cons v
      · exact (ih _).cons₂ v

/-- Every kept record's key was not in the seen set. -/
theorem relatedDedupAux_key_notin (seen : List String) (l : List CleanedVideo)
    (v : CleanedVideo) (hv : v ∈ relatedDedupAux seen l) :
    relKey v ∉ seen := by
  induction l generalizing seen with
  | nil => simp [relatedDedupAux] at hv
  | cons w ws ih =>
    simp only [relatedDedupAux] at hv
    split at hv
    · exact ih seen hv
    · split at hv
      · exact ih seen hv
      · rename_i hkey
        rcases List.mem_cons.mp hv with h | h
        · subst h
          exact hkey
        · have h2 := ih _ h
          intro hmem
          exact h2 (List.mem_cons_of_mem _ hmem)

/-- The related dedup output has pairwise distinct composite keys. -/
theorem relatedDedupAux_pairwise (seen : List String) (l : List CleanedVideo) :
    List.Pairwise (fun a b => relKey a ≠ relKey b)
      (relatedDedupAux seen l) := by
  induction l generalizing seen with
  | nil => simp [relatedDedupAux]
  | cons w ws ih =>
    simp only [relatedDedupAux]
    split
    · exact ih seen
    · split
      · exact ih seen
      · refine List.Pairwise.cons ?_ (ih _)
        intro b hb
        have h2 := relatedDedupAux_key_notin _ _ _ hb
        intro hEq
        exact h2 (by rw [← hEq]; exact List.mem_cons_self _ _)

/-- The search dedup output is a subsequence of its input. -/
theorem searchDedupAux_sublist (ids : List JNum) (titles urls : List String)
    (l : List CleanedVideo) :
    (searchDedupAux ids titles urls l).Sublist l := by
  induction l generalizing ids titles urls with
  | nil => simp [searchDedupAux]
  | cons v vs ih =>
    simp only [searchDedupAux]
    split
    · exact (ih _ _ _).cons v
    · split
      · exact (ih _ _ _).cons v
      · exact (ih _ _ _).cons₂ v

/-- Every kept record's id was not in the seen-id set. -/
theorem searchDedupAux_id_notin (ids : List JNum) (titles urls : List String)
    (l : List CleanedVideo) (v : CleanedVideo)
    (hv : v ∈ searchDedupAux ids titles urls l) : v.id ∉ ids := by
  induction l generalizing ids titles urls with
  | nil => simp [searchDedupAux] at hv
  | cons w ws ih =>
    simp only [searchDedupAux] at hv
    split at hv
    · exact ih _ _ _ hv
    · split at hv
      · exact ih _ _ _ hv
      · rename_i hcol
        rcases List.mem_cons.mp hv with h | h
        · subst h
          intro hmem
          exact hcol (Or.inl hmem)
        · have h2 := ih _ _ _ h
          intro hmem
          exact h2 (List.mem_cons_of_mem _ hmem)

/-- The search dedup output has pairwise distinct ids. -/
theorem searchDedupAux_pairwise (ids : List JNum) (titles urls : List String)
    (l : List CleanedVideo) :
    List.Pairwise (fun a b => a.id ≠ b.id)
      (searchDedupAux ids titles urls l) := by
  induction l generalizing ids titles urls with
  | nil => simp [searchDedupAux]
  | cons w ws ih =>
    simp only [searchDedupAux]
    split
    · exact ih _ _ _
    · split
      · exact ih _ _ _
      · refine List.Pairwise.cons ?_ (ih _ _ _)
        intro b hb
        have h2 := searchDedupAux_id_notin _ _ _ _ _ hb
        intro hEq
        exact h2 (by rw [← hEq]; exact List.mem_cons_self _ _)

/-- C7: dedup key uniqueness — after either dedup loop no two output
records share the identical (id, title, pageURL) triple, and the output is
an order-preserving subsequence of the input. -/
theorem c7_dedup_key_uniqueness (l : List CleanedVideo) :
    List.Pairwise (fun a b =>
        ¬(a.id = b.id ∧ a.title = b.title ∧ a.pageURL = b.pageURL))
      (relatedDedup l) ∧
      (relatedDedup l).Sublist l ∧
      List.Pairwise (fun a b =>
          ¬(a.id = b.id ∧ a.title = b.title ∧ a.pageURL = b.pageURL))
        (searchDedup l) ∧
      (searchDedup l).Sublist l := by
  refine ⟨?_, relatedDedupAux_sublist [] l, ?_,
    searchDedupAux_sublist [] [] [] l⟩
  · refine (relatedDedupAux_pairwise [] l).imp ?_
    intro a b hk habc
    apply hk
    unfold relKey
    rw [habc.1, habc.2.1, habc.2.2]
  · refine (searchDedupAux_pairwise [] [] [] l).imp ?_
    intro a b hk habc
    exact hk habc.1

/-- C4: dedup policy asymmetry — the search loop collapses on an id-alone,
title-alone, or pageURL-alone collision while the related loop keeps such
records, and a pair differing only in `views` collapses under both. -/
theorem c4_dedup_asymmetry :
    searchDedup [cvBase, cvSameId] = [cvBase] ∧
      relatedDedup [cvBase, cvSameId] = [cvBase, cvSameId] ∧
      searchDedup [cvBase, cvSameTitle] = [cvBase] ∧
      relatedDedup [cvBase, cvSameTitle] = [cvBase, cvSameTitle] ∧
      searchDedup [cvBase, cvSameUrl] = [cvBase] ∧
      relatedDedup [cvBase, cvSameUrl] = [cvBase, cvSameUrl] ∧
      searchDedup [cvBase, cvViewsOnly] = [cvBase] ∧
      relatedDedup [cvBase, cvViewsOnly] = [cvBase] := by decide

/-- C5: stats arithmetic — both responses report
`found = unique + duplicatesRemoved` and `unique = complete + filteredOut`
exactly. -/
theorem c5_stats_arithmetic (results related : List CleanedVideo) :
    (searchMeta results).totalFound =
        (searchMeta results).uniqueVideos +
          (searchMeta results).duplicatesRemoved ∧
      (searchMeta results).uniqueVideos =
        (searchMeta results).completeVideos + (searchMeta results).filtered ∧
      (detailsMeta related).totalRelated =
        (detailsMeta related).uniqueRelated +
          (detailsMeta related).duplicatesRemoved ∧
      (detailsMeta related).uniqueRelated =
        (detailsMeta related).completeRelated +
          (detailsMeta related).filteredRelated := by
  simp only [searchMeta, detailsMeta]
  refine ⟨by ring, by ring, by ring, by ring⟩

/-- C3 counterexample: on `exHtmlC3` both the first
(`relatedVideosComponent`) and the third (general `videoThumbProps`) script
strategies yield records, but the candidate collection is exactly the first
strategy's finds — the strategies early-exit instead of accumulating, so it
does not contain the finds of both. -/
theorem c3_counterexample :
    (method1Videos (scriptContentsOf exHtmlC3)).length = 1 ∧
      (method3Videos (scriptContentsOf exHtmlC3)).length = 2 ∧
      relatedCandidates (fun _ => []) exHtmlC3 =
        method1Videos (scriptContentsOf exHtmlC3) ∧
      ¬(method3Videos (scriptContentsOf exHtmlC3)).all
          (fun v => v ∈ relatedCandidates (fun _ => []) exHtmlC3) = true := by
  decide

/-- C3 amended: the three script-embedded strategies of the related-video
extraction do not accumulate across strategies — each later strategy runs
only when every earlier one produced nothing (within one strategy the finds
of all matching script tags are appended); in particular a non-empty
method-1 result is the entire candidate collection, and method 2
contributes only when method 1 found nothing. -/
theorem c3_amended (dom : String → List Candidate) (html : String) :
    (method1Videos (scriptContentsOf html) ≠ [] →
        relatedCandidates dom html =
          method1Videos (scriptContentsOf html)) ∧
      (method1Videos (scriptContentsOf html) = [] →
        method2Videos (scriptContentsOf html) ≠ [] →
        relatedCandidates dom html =
          method2Videos (scriptContentsOf html)) := by
  constructor
  · intro h1
    have h1e : (method1Videos (scriptContentsOf html)).isEmpty = false := by
      cases hm : method1Videos (scriptContentsOf html) with
      | nil => exact absurd hm h1
      | cons a as => rfl
    unfold relatedCandidates
    simp [h1e]
  · intro h1 h2
    have h2e : (method2Videos (scriptContentsOf html)).isEmpty = false := by
      cases hm : method2Videos (scriptContentsOf html) with
      | nil => exact absurd hm h2
      | cons a as => rfl
    unfold relatedCandidates
    simp [h1, h2e]

/-- Witness for C3's amended theorem at the concrete page. -/
theorem c3_witness :
    method1Videos (scriptContentsOf exHtmlC3) ≠ [] ∧
      relatedCandidates (fun _ => []) exHtmlC3 =
        method1Videos (scriptContentsOf exHtmlC3) :=
  ⟨by decide, (c3_amended (fun _ => []) exHtmlC3).1 (by decide)⟩

/-- C8: feeding the collection parser the unquoted-keys embedded array
yields exactly one valid record with `pageURL = "videos/a-1"`,
`duration = 30`, `views = 5`. -/
theorem c8_embedded_array_example :
    (parseVideoArray exC8Str).map cleanVideoData = [some exC8Clean] ∧
      exC8Clean.pageURL = "videos/a-1" ∧
      exC8Clean.duration = JNum.int 30 ∧
      exC8Clean.views = JNum.int 5 := by decide

/-- C9: a details request whose path does not start with `videos/` gets the
invalid-path error (HTTP 400) before any outbound fetch — the outcome is
independent of the fetch and of the post-fetch processing, so no upstream
request is made and nothing is retried. -/
theorem c9_invalid_path_guard {α : Type} (fetch fetch2 : String → FetchResult)
    (process process2 : String → RouteOutcome α) (path : String)
    (h : strStartsWith path "videos/" = false) :
    detailsRoute fetch process path = RouteOutcome.invalidPath ∧
      routeStatus (detailsRoute fetch process path) = 400 ∧
      detailsRoute fetch process path = detailsRoute fetch2 process2 path := by
  unfold detailsRoute
  rw [h]
  exact ⟨rfl, rfl, rfl⟩

/-- Witness for C9 at a concrete invalid path. -/
theorem c9_witness :
    strStartsWith "foo/bar" "videos/" = false ∧
      detailsRoute (fun _ => FetchResult.networkError "down")
          (fun _ => RouteOutcome.ok 0) "foo/bar" =
        (RouteOutcome.invalidPath : RouteOutcome Nat) :=
  ⟨by decide,
    (c9_invalid_path_guard (fun _ => FetchResult.networkError "down")
      (fun _ => FetchResult.networkError "down")
      (fun _ => RouteOutcome.ok 0) (fun _ => RouteOutcome.ok 0)
      "foo/bar" (by decide)).1⟩

/-- A valid id is truthy. -/
theorem hasValidId_truthy (c : CleanedVideo) (h : hasValidId c = true) :
    jnumTruthy c.id = true := by
  unfold hasValidId at h
  unfold jnumTruthy
  cases hid : c.id with
  | int n =>
    rw [hid] at h
    simp at h ⊢
    omega
  | undefined => rw [hid] at h; simp at h
  | nan => rw [hid] at h; simp at h

/-- A valid duration is truthy. -/
theorem hasValidDuration_truthy (c : CleanedVideo)
    (h : hasValidDuration c = true) : jnumTruthy c.duration = true := by
  unfold hasValidDuration at h
  unfold jnumTruthy
  cases hd : c.duration with
  | int n =>
    rw [hd] at h
    simp at h ⊢
    omega
  | undefined => rw [hd] at h; simp at h
  | nan => rw [hd] at h; simp at h

/-- Valid views are defined. -/
theorem hasValidViews_ne_undef (c : CleanedVideo)
    (h : hasValidViews c = true) :
    decide (c.views ≠ JNum.undefined) = true := by
  unfold hasValidViews at h
  cases hv : c.views with
  | int n => simp
  | undefined => rw [hv] at h; simp at h
  | nan => rw [hv] at h; simp at h

/-- A fully valid record passes the dedup skip-invalid guard. -/
theorem dedupGuard_of_valid (c : CleanedVideo) (h6 : sixValidB c = true) :
    dedupGuardB c = true := by
  simp only [sixValidB, Bool.and_eq_true] at h6
  obtain ⟨⟨⟨⟨⟨hid, htitle⟩, hdur⟩, hpage⟩, hthumb⟩, hviews⟩ := h6
  simp only [dedupGuardB, Bool.and_eq_true]
  exact ⟨⟨hasValidId_truthy c hid, htitle⟩, hpage⟩

/-- The pageURL of a cleaned record starts with `videos/`. -/
theorem clean_some_startsWith (v : Candidate) (c : CleanedVideo)
    (h : cleanVideoData v = some c) :
    strStartsWith c.pageURL "videos/" = true := by
  rcases clean_some_pageURL_shape v c h with ⟨s, hs⟩
  have h6 := clean_some_sixValid v c h
  have hne : c.pageURL ≠ "" := by
    simp only [sixValidB, Bool.and_eq_true] at h6
    have hp := h6.1.1.2
    unfold hasValidPageURL at hp
    exact bne_iff_ne.mp hp
  rcases extractVideoPath_shape s with he | hsw
  · rw [hs] at hne
    exact absurd he hne
  · rw [hs]
    exact hsw

/-- A fully valid record whose pageURL starts with `videos/` passes the
completeness filter. -/
theorem completeB_of_valid (c : CleanedVideo) (h6 : sixValidB c = true)
    (hsw : strStartsWith c.pageURL "videos/" = true) :
    completeB c = true := by
  simp only [sixValidB, Bool.and_eq_true] at h6
  obtain ⟨⟨⟨⟨⟨hid, htitle⟩, hdur⟩, hpage⟩, hthumb⟩, hviews⟩ := h6
  simp only [completeB, Bool.and_eq_true]
  exact ⟨⟨⟨⟨⟨⟨hasValidId_truthy c hid, htitle⟩,
    hasValidDuration_truthy c hdur⟩, hpage⟩,
    strContains_of_startsWith _ _ hsw⟩, hthumb⟩,
    hasValidViews_ne_undef c hviews⟩

/-- Every record returned by search strategy 1 is a `cleanVideoData`
output. -/
theorem mem_searchStrat1 (html : String) (res : List CleanedVideo)
    (h : searchStrat1 html = some res) (c : CleanedVideo) (hc : c ∈ res) :
    ∃ v, cleanVideoData v = some c := by
  simp only [searchStrat1] at h
  cases hre : reSearch searchResultRE html.toList with
  | none => rw [hre] at h; exact absurd h (by simp)
  | some m =>
    obtain ⟨pre, rest⟩ := m
    obtain ⟨n, caps⟩ := rest
    rw [hre] at h
    simp only at h
    cases hjp : jsonParse (String.mk (quoteKeys (removeTrailingCommaBracket
        (removeTrailingCommaBrace (capStr caps 1).toList)))) with
    | none => rw [hjp] at h; exact absurd h (by simp)
    | some data =>
      rw [hjp] at h
      simp only at h
      cases hf : jfield data "videoThumbProps" with
      | none => rw [hf] at h; exact absurd h (by simp)
      | some j =>
        rw [hf] at h
        cases j with
        | jArr xs =>
          simp only at h
          injection h with h2
          subst h2
          rcases List.mem_filterMap.mp hc with ⟨a, _, ha⟩
          exact ⟨a, ha⟩
        | jNull => exact absurd h (by simp)
        | jBool b => exact absurd h (by simp)
        | jNum k => exact absurd h (by simp)
        | jStr s => exact absurd h (by simp)
        | jObj fs => exact absurd h (by simp)

/-- Every record returned by search strategy 2 is a `cleanVideoData`
output. -/
theorem mem_searchStrat2 (scripts : List String) (res : List CleanedVideo)
    (h : searchStrat2 scripts = some res) (c : CleanedVideo) (hc : c ∈ res) :
    ∃ v, cleanVideoData v = some c := by
  induction scripts with
  | nil => simp [searchStrat2] at h
  | cons s rest ih =>
    simp only [searchStrat2] at h
    split at h
    · cases hre : reSearch videoThumbPropsRE s.toList with
      | none => rw [hre] at h; exact ih h
      | some m =>
        obtain ⟨pre, r2⟩ := m
        obtain ⟨n, caps⟩ := r2
        rw [hre] at h
        simp only at h
        cases hjp : jsonParse (String.mk (quoteKeys (removeTrailingCommaBrace
            (removeTrailingCommaBracket (capStr caps 1).toList)))) with
        | none => rw [hjp] at h; exact ih h
        | some data =>
          rw [hjp] at h
          cases data with
          | jArr xs =>
            simp only at h
            injection h with h2
            subst h2
            rcases List.mem_filterMap.mp hc with ⟨a, _, ha⟩
            exact ⟨a, ha⟩
          | jNull => exact ih h
          | jBool b => exact ih h
          | jNum k => exact ih h
          | jStr str => exact ih h
          | jObj fs => exact ih h
    · exact ih h

/-- Every record returned by search strategy 3 is a `cleanVideoData`
output. -/
theorem mem_searchStrat3 (now : Int) (cards : List Candidate)
    (c : CleanedVideo) (hc : c ∈ searchStrat3 now cards) :
    ∃ v, cleanVideoData v = some c := by
  induction cards with
  | nil => simp [searchStrat3] at hc
  | cons v vs ih =>
    simp only [searchStrat3] at hc
    split at hc
    · exact ih hc
    · cases hcv : cleanVideoData (searchIdSynth now v) with
      | some c2 =>
        rw [hcv] at hc
        simp only at hc
        rcases List.mem_cons.mp hc with h | h
        · subst h
          exact ⟨_, hcv⟩
        · exact ih h
      | none =>
        rw [hcv] at hc
        exact ih hc

/-- Every record returned by the search extraction is a `cleanVideoData`
output. -/
theorem mem_extractSearch (dom : String → List Candidate) (now : Int)
    (html : String) (c : CleanedVideo)
    (hc : c ∈ extractSearchResults dom now html) :
    ∃ v, cleanVideoData v = some c := by
  unfold extractSearchResults at hc
  cases h1 : searchStrat1 html with
  | some r =>
    rw [h1] at hc
    exact mem_searchStrat1 html r h1 c hc
  | none =>
    rw [h1] at hc
    simp only at hc
    cases h2 : searchStrat2 (searchScriptContents html) with
    | some r =>
      rw [h2] at hc
      exact mem_searchStrat2 _ r h2 c hc
    | none =>
      rw [h2] at hc
      exact mem_searchStrat3 now _ c hc

/-- Every record returned by the related extraction is a `cleanVideoData`
output. -/
theorem mem_extractRelated (dom : String → List Candidate) (html : String)
    (c : CleanedVideo) (hc : c ∈ extractRelatedVideos dom html) :
    ∃ v, cleanVideoData v = some c := by
  unfold extractRelatedVideos at hc
  rcases List.mem_filterMap.mp hc with ⟨a, _, ha⟩
  exact ⟨a, ha⟩

/-- Lists of `cleanVideoData` outputs satisfy the per-record validity
bundle. -/
theorem extraction_all_validB (l : List CleanedVideo)
    (hmem : ∀ c ∈ l, ∃ v, cleanVideoData v = some c) :
    l.all (fun r => sixValidB r && strStartsWith r.pageURL "videos/" &&
      dedupGuardB r) = true := by
  rw [List.all_eq_true]
  intro r hr
  rcases hmem r hr with ⟨v, hv⟩
  have h6 := clean_some_sixValid v r hv
  have hsw := clean_some_startsWith v r hv
  have hg := dedupGuard_of_valid r h6
  simp [h6, hsw, hg]

/-- The completeness filter keeps every record of a deduped list of
`cleanVideoData` outputs. -/
theorem completeFilter_id_of (l u : List CleanedVideo)
    (hmem : ∀ c ∈ l, ∃ v, cleanVideoData v = some c)
    (hsub : u.Sublist l) : completeFilter u = u := by
  unfold completeFilter
  rw [List.filter_eq_self]
  intro a ha
  rcases hmem a (hsub.subset ha) with ⟨v, hv⟩
  exact completeB_of_valid a (clean_some_sixValid v a hv)
    (clean_some_startsWith v a hv)

/-- C10: every record reaching the endpoint-level deduplication satisfies
all six required-field predicates and has a pageURL starting with
`videos/`; hence the skip-invalid guard never fires, the post-dedup
completeness filter removes nothing, and the `filtered` /
`filteredRelated` stat is zero. -/
theorem c10_validity_gate (domS domR : String → List Candidate) (now : Int)
    (html : String) :
    ((extractSearchResults domS now html).all
        (fun r => sixValidB r && strStartsWith r.pageURL "videos/" &&
          dedupGuardB r) = true) ∧
      completeFilter (searchDedup (extractSearchResults domS now html)) =
        searchDedup (extractSearchResults domS now html) ∧
      (searchMeta (extractSearchResults domS now html)).filtered = 0 ∧
      ((extractRelatedVideos domR html).all
        (fun r => sixValidB r && strStartsWith r.pageURL "videos/" &&
          dedupGuardB r) = true) ∧
      completeFilter (relatedDedup (extractRelatedVideos domR html)) =
        relatedDedup (extractRelatedVideos domR html) ∧
      (detailsMeta (extractRelatedVideos domR html)).filteredRelated = 0 := by
  have hmemS : ∀ c ∈ extractSearchResults domS now html,
      ∃ v, cleanVideoData v = some c :=
    fun c hc => mem_extractSearch domS now html c hc
  have hmemR : ∀ c ∈ extractRelatedVideos domR html,
      ∃ v, cleanVideoData v = some c :=
    fun c hc => mem_extractRelated domR html c hc
  have hfiltS : completeFilter (searchDedup (extractSearchResults domS now html)) =
      searchDedup (extractSearchResults domS now html) :=
    completeFilter_id_of _ _ hmemS
      (searchDedupAux_sublist [] [] [] (extractSearchResults domS now html))
  have hfiltR : completeFilter (relatedDedup (extractRelatedVideos domR html)) =
      relatedDedup (extractRelatedVideos domR html) :=
    completeFilter_id_of _ _ hmemR
      (relatedDedupAux_sublist [] (extractRelatedVideos domR html))
  refine ⟨extraction_all_validB _ hmemS, hfiltS, ?_,
    extraction_all_validB _ hmemR, hfiltR, ?_⟩
  · simp only [searchMeta]
    rw [hfiltS]
    exact sub_self _
  · simp only [detailsMeta]
    rw [hfiltR]
    exact sub_self _

end StreamAPI
